import Mathlib

/-!
Shallow embedding of `htmlparsers/google_search.py` (class `GoogleHtmlParser`).

The document tree produced by `lxml.html.fromstring` is modelled by the
inductive type `Node` (elements carry a tag, an attribute list and a child
list; text is a separate node kind).  Each XPath expression occurring in the
source is embedded as a Lean function over `Node`, and each method of
`GoogleHtmlParser` as a Lean function; Python code that can raise
(`IndexError` from subscripting an empty node-set, `ValueError` from `int()`)
is embedded in the `Except PyError` monad.
-/

namespace GoogleSearch

/-- A node of the parsed document tree: an element with tag name, attribute
map and children, or a piece of character data. -/
inductive Node where
  | elem (tag : String) (attrs : List (String × String)) (kids : List Node)
  | text (s : String)

mutual
/-- All proper descendants of a node, in document order. -/
def descendants : Node → List Node
  | .text _ => []
  | .elem _ _ kids => descendantsList kids

/-- All members of a forest together with their descendants, in document
order. -/
def descendantsList : List Node → List Node
  | [] => []
  | n :: ns => n :: descendants n ++ descendantsList ns
end

mutual
/-- `Element.text_content()`: concatenation of all character data in the
subtree, in document order. -/
def textContent : Node → String
  | .text s => s
  | .elem _ _ kids => textContentList kids

/-- Concatenated character data of a forest. -/
def textContentList : List Node → String
  | [] => ""
  | n :: ns => textContent n ++ textContentList ns
end

/-- Attribute lookup on an element node (text nodes have no attributes). -/
def attr : Node → String → Option String
  | .elem _ attrs _, key => (attrs.find? (fun p => p.1 == key)).map Prod.snd
  | .text _, _ => none

/-- Does the node have the given element tag? -/
def isTag (t : String) : Node → Bool
  | .elem tg _ _ => tg == t
  | .text _ => false

/-- The children of a node (empty for text nodes). -/
def childrenOf : Node → List Node
  | .elem _ _ kids => kids
  | .text _ => []

/-- Child nodes that are elements (lxml's `len(element)` counts these). -/
def elemChildren (n : Node) : List Node :=
  (childrenOf n).filter (fun k => match k with | .elem _ _ _ => true | .text _ => false)

/-- The strings of the direct text-node children (XPath `text()` step). -/
def directTexts (n : Node) : List String :=
  (childrenOf n).filterMap (fun k => match k with | .text s => some s | .elem _ _ _ => none)

/-- The node together with its descendants, in document order. -/
def selfAndDesc (n : Node) : List Node := n :: descendants n

/-- The characters Python's `str.split()` / `str.strip()` treat as whitespace
(restricted to the ASCII range, which is all that survives `_clean`'s
`encode('ascii', 'ignore')`). -/
def pySpace (c : Char) : Bool :=
  c == ' ' || c == '\t' || c == '\n' || c == '\x0b' || c == '\x0c' || c == '\r'
    || c == '\x1c' || c == '\x1d' || c == '\x1e' || c == '\x1f'

/-- Worker for `str.split()` with no separator: split on whitespace runs,
discarding empty fields.  `acc` holds the reversed current word. -/
def splitWsAux : List Char → List Char → List (List Char)
  | [], acc => if acc.isEmpty then [] else [acc.reverse]
  | c :: cs, acc =>
    if pySpace c then
      if acc.isEmpty then splitWsAux cs [] else acc.reverse :: splitWsAux cs []
    else splitWsAux cs (c :: acc)

/-- `str.split()` with no separator, over character lists. -/
def splitWs (l : List Char) : List (List Char) := splitWsAux l []

/-- `str.split()` with no separator. -/
def pySplit (s : String) : List String := (splitWs s.data).map (fun w => String.mk w)

/-- `str.strip()`: drop leading and trailing whitespace. -/
def stripWs (l : List Char) : List Char := (l.dropWhile pySpace).rdropWhile pySpace

/-- `' '.join(words)` over character lists. -/
def joinWords : List (List Char) → List Char
  | [] => []
  | w :: ws => w ++ ws.flatMap (fun v => ' ' :: v)

/-- Characters kept by `str.encode('ascii', 'ignore')`. -/
def isAsciiChar (c : Char) : Bool := c.toNat < 128

/-- `GoogleHtmlParser._clean` on a string argument: empty input is returned
unchanged (falsy), otherwise non-ASCII characters are dropped, the result is
stripped, and internal whitespace runs are collapsed to single spaces via
`' '.join(content.split())`. -/
def clean (content : String) : String :=
  if content = "" then ""
  else String.mk (joinWords (splitWs (stripWs (content.data.filter isAsciiChar))))

/-- `GoogleHtmlParser._clean` on an optional argument (`None` is falsy). -/
def cleanOpt : Option String → String
  | none => ""
  | some s => clean s

/-- `str.lower()` on the ASCII range, written as an explicit letter table. -/
def pyLower : Char → Char
  | 'A' => 'a' | 'B' => 'b' | 'C' => 'c' | 'D' => 'd' | 'E' => 'e' | 'F' => 'f'
  | 'G' => 'g' | 'H' => 'h' | 'I' => 'i' | 'J' => 'j' | 'K' => 'k' | 'L' => 'l'
  | 'M' => 'm' | 'N' => 'n' | 'O' => 'o' | 'P' => 'p' | 'Q' => 'q' | 'R' => 'r'
  | 'S' => 's' | 'T' => 't' | 'U' => 'u' | 'V' => 'v' | 'W' => 'w' | 'X' => 'x'
  | 'Y' => 'y' | 'Z' => 'z'
  | c => c

/-- `str.strip('_')`: drop leading and trailing underscores. -/
def stripUnderscores (l : List Char) : List Char :=
  (l.dropWhile (fun c => c == '_')).rdropWhile (fun c => c == '_')

/-- `GoogleHtmlParser._normalize_dict_key`: replace each space with an
underscore, delete colons, lowercase, strip leading/trailing underscores. -/
def normalize_dict_key (content : String) : String :=
  let l1 := content.data.map (fun c => if c == ' ' then '_' else c)
  let l2 := l1.filter (fun c => !(c == ':'))
  String.mk (stripUnderscores (l2.map pyLower))

/-- The Python exceptions the parser can raise while extracting. -/
inductive PyError where
  | indexError
  | valueError
deriving Repr, DecidableEq

/-- Subscripting a Python list: out of range raises `IndexError`. -/
def liftIndex : Option α → Except PyError α
  | some a => .ok a
  | none => .error .indexError

/-- A Python `for` loop collecting one result per element, where an uncaught
exception in any iteration aborts the whole loop. -/
def mapME (f : α → Except PyError β) : List α → Except PyError (List β)
  | [] => .ok []
  | x :: xs => do
    let y ← f x
    let ys ← mapME f xs
    .ok (y :: ys)

/-- Is `c` an ASCII decimal digit? -/
def isDigitC (c : Char) : Bool := '0' ≤ c && c ≤ '9'

/-- Continuation of Python's integer-literal digit part: digits optionally
separated by single underscores. -/
def validTail : List Char → Bool
  | [] => true
  | '_' :: c :: rest => isDigitC c && validTail rest
  | c :: rest => isDigitC c && validTail rest

/-- Python's integer-literal digit part: nonempty, starts with a digit,
underscores only between digits. -/
def validIntBody (l : List Char) : Bool :=
  match l with
  | [] => false
  | c :: rest => isDigitC c && validTail rest

/-- Value of a digit string. -/
def digitsValue (l : List Char) : Nat :=
  l.foldl (fun a c => a * 10 + (c.toNat - 48)) 0

/-- Python `int(str)`: strip whitespace, optional sign, digit part with
optional grouping underscores; anything else raises `ValueError`. -/
def pyInt (s : String) : Except PyError Int :=
  match stripWs s.data with
  | '-' :: rest =>
    if validIntBody rest then .ok (-(digitsValue (rest.filter (fun c => !(c == '_'))) : Int))
    else .error .valueError
  | '+' :: rest =>
    if validIntBody rest then .ok ((digitsValue (rest.filter (fun c => !(c == '_'))) : Int))
    else .error .valueError
  | t =>
    if validIntBody t then .ok ((digitsValue (t.filter (fun c => !(c == '_'))) : Int))
    else .error .valueError

/-- `str.replace(',', '')`. -/
def removeCommas (s : String) : String :=
  String.mk (s.data.filter (fun c => !(c == ',')))

/-- Does `needle` occur at the head of `hay`? -/
def startsWithL : List Char → List Char → Bool
  | _, [] => true
  | [], _ :: _ => false
  | c :: cs, d :: ds => c == d && startsWithL cs ds

/-- XPath `contains(hay, needle)`: substring containment. -/
def containsSubL : List Char → List Char → Bool
  | [], needle => needle.isEmpty
  | c :: cs, needle => startsWithL (c :: cs) needle || containsSubL cs needle

/-- The class attribute padded with spaces, as in
`concat(" ", @class, " ")` (a missing attribute reads as `""`). -/
def classPadded (n : Node) : String := " " ++ ((attr n "class").getD "") ++ " "

/-- XPath `//div[@class="g"]`: the organic-result containers. -/
def organicContainers (root : Node) : List Node :=
  (selfAndDesc root).filter (fun n => isTag "div" n && attr n "class" == some "g")

/-- The `div`-tagged children of a node. -/
def divChildren (n : Node) : List Node := (childrenOf n).filter (isTag "div")

/-- XPath `.//div/div/div[2]/div` relative to an organic container: the
candidate description blocks. -/
def snippetsQuery (g : Node) : List Node :=
  let s1 := (descendants g).filter (isTag "div")
  let s2 := s1.flatMap divChildren
  let s3 := s2.flatMap (fun c => ((divChildren c).get? 1).toList)
  s3.flatMap divChildren

/-- XPath `.//@href[1]`: every `href` attribute value in the subtree
(including the context node), in document order. -/
def hrefsIn (g : Node) : List String :=
  (selfAndDesc g).filterMap (fun n => attr n "href")

/-- XPath `.//h3/text()`: the direct text of every descendant `h3`. -/
def h3Texts (g : Node) : List String :=
  ((descendants g).filter (isTag "h3")).flatMap directTexts

/-- XPath `.//g-review-stars` relative to a description block. -/
def reviewStars (n : Node) : List Node :=
  (descendants n).filter (isTag "g-review-stars")

/-- One organic search result after `_clean`ing (the Python dict built at the
end of each `_get_organic` loop iteration; `rich_snippet` is the empty string
when the raw value was `None`). -/
structure OrganicResult where
  url : String
  title : String
  snippet : String
  rich_snippet : String
deriving Repr, DecidableEq

/-- One iteration of the `_get_organic` loop: disambiguate the candidate
description blocks, then build the result dict (the `url` and `title`
subscripts raise `IndexError` when their node-sets are empty). -/
def get_organic_one (g : Node) : Except PyError OrganicResult := do
  let snippets := snippetsQuery g
  let sr : Option String × Option String :=
    match snippets with
    | [] => (none, none)
    | [s0] => (some (textContent s0), none)
    | s0 :: s1 :: _ =>
      if (reviewStars s1).length > 0 then
        (some (textContent s0), some (textContent s1))
      else
        (some (textContent s1), some (textContent s0))
  let url ← liftIndex (hrefsIn g).head?
  let title ← liftIndex (h3Texts g).head?
  .ok { url := clean url, title := clean title,
        snippet := cleanOpt sr.1, rich_snippet := cleanOpt sr.2 }

/-- `GoogleHtmlParser._get_organic`: loop over all organic containers; an
uncaught exception in any iteration aborts the whole loop. -/
def get_organic (root : Node) : Except PyError (List OrganicResult) :=
  mapME get_organic_one (organicContainers root)

/-- XPath `//*[@id="result-stats"]/text()`. -/
def statsTexts (root : Node) : List String :=
  ((selfAndDesc root).filter (fun n => attr n "id" == some "result-stats")).flatMap directTexts

/-- `GoogleHtmlParser._get_estimated_results`: `0` when the stats node-set is
empty, otherwise `int` of the second whitespace token of its first text with
commas removed (`IndexError` when there is no second token, `ValueError` when
it is not numeric). -/
def get_estimated_results (root : Node) : Except PyError Int :=
  match statsTexts root with
  | [] => .ok 0
  | e :: _ => do
    let tok ← liftIndex ((pySplit e).get? 1)
    pyInt (removeCommas tok)

/-- XPath `//div[contains(concat(" ", @class, " "), "kp-blk")]`. -/
def fsQuery (root : Node) : List Node :=
  (selfAndDesc root).filter
    (fun n => isTag "div" n && containsSubL (classPadded n).data "kp-blk".data)

/-- XPath `.//a/@href`: `href` values of descendant anchors. -/
def aHrefs (n : Node) : List String :=
  ((descendants n).filter (isTag "a")).filterMap (fun a => attr a "href")

/-- The featured-snippet dict. -/
structure FeaturedSnippet where
  title : String
  url : String
deriving Repr, DecidableEq

/-- `GoogleHtmlParser._get_featured_snippet`: first matching block; needs a
nonempty heading node-set and a nonempty link node-set, then takes the first
heading text and the last link target; otherwise `None`. -/
def get_featured_snippet (root : Node) : Option FeaturedSnippet :=
  match fsQuery root with
  | [] => none
  | el :: _ =>
    let heading := h3Texts el
    let url := aHrefs el
    if heading.length > 0 && url.length > 0 then
      some { title := heading.headD "", url := url.getLastD "" }
    else none

/-- An entry of a knowledge-card `more_info` list value: a `{title, subtitle}`
pair or a plain string (from the "people also search for" block). -/
inductive KCItem where
  | pair (title subtitle : String)
  | plain (s : String)
deriving Repr, DecidableEq

/-- A knowledge-card `more_info` value: a plain string or a list of items. -/
inductive KCVal where
  | str (s : String)
  | items (l : List KCItem)
deriving Repr, DecidableEq

/-- The knowledge-card dict. -/
structure KnowledgeCard where
  title : String
  subtitle : String
  description : String
  more_info : List (String × KCVal)
deriving Repr, DecidableEq

/-- XPath `//div[contains(concat(" ", @class, " "), "kp-wholepage")]`. -/
def kcQuery (root : Node) : List Node :=
  (selfAndDesc root).filter
    (fun n => isTag "div" n && containsSubL (classPadded n).data "kp-wholepage".data)

/-- XPath `.//div[contains(@data-attrid, ":/")]`. -/
def attridDivs (kc : Node) : List Node :=
  (descendants kc).filter
    (fun n => isTag "div" n && containsSubL ((attr n "data-attrid").getD "").data ":/".data)

/-- XPath `.//span`. -/
def spanDescendants (el : Node) : List Node :=
  (descendants el).filter (isTag "span")

/-- XPath `.//div[@role="heading"]`. -/
def headingDivs (el : Node) : List Node :=
  (descendants el).filter (fun n => isTag "div" n && attr n "role" == some "heading")

/-- XPath `.//a`. -/
def anchorsIn (el : Node) : List Node :=
  (descendants el).filter (isTag "a")

/-- XPath `.//div[@role="list"]`. -/
def listDivs (el : Node) : List Node :=
  (descendants el).filter (fun n => isTag "div" n && attr n "role" == some "list")

/-- XPath `.//div[@class="title"]`. -/
def titleDivs (el : Node) : List Node :=
  (descendants el).filter (fun n => isTag "div" n && attr n "class" == some "title")

/-- XPath `.//div`. -/
def divDescendants (el : Node) : List Node :=
  (descendants el).filter (isTag "div")

/-- XPath `.//div[@data-reltype="sideways"]`. -/
def sidewaysDivs (el : Node) : List Node :=
  (descendants el).filter (fun n => isTag "div" n && attr n "data-reltype" == some "sideways")

/-- XPath `.//h2/span`. -/
def h2SpanNodes (kc : Node) : List Node :=
  ((descendants kc).filter (isTag "h2")).flatMap (fun h => (childrenOf h).filter (isTag "span"))

/-- XPath `.//div[contains(@data-attrid, "subtitle")]`. -/
def subtitleDivs (kc : Node) : List Node :=
  (descendants kc).filter
    (fun n => isTag "div" n && containsSubL ((attr n "data-attrid").getD "").data "subtitle".data)

/-- XPath `.//div[@class="kno-rdesc"]/span`. -/
def knoRdescSpans (kc : Node) : List Node :=
  ((descendants kc).filter (fun n => isTag "div" n && attr n "class" == some "kno-rdesc")).flatMap
    (fun d => (childrenOf d).filter (isTag "span"))

/-- Inner body of the `_get_knowledge_card` list loop: a heading item with
element children contributes a `{title, subtitle}` pair (either subscript can
raise `IndexError`); one without element children contributes nothing. -/
def processListItem (item : Node) : Except PyError (List KCItem) :=
  if (elemChildren item).length > 0 then do
    let t ← liftIndex (titleDivs item).head?
    let s ← liftIndex ((divDescendants item).get? 1)
    .ok [KCItem.pair (textContent t) (textContent s)]
  else .ok []

/-- Items contributed by one `div[@role="list"]` group. -/
def itemsOfListDiv (item_div : Node) : Except PyError (List KCItem) := do
  let ls ← mapME processListItem (headingDivs item_div)
  .ok ls.flatten

/-- One iteration of the `more_info` loop of `_get_knowledge_card`: exactly
two descendant spans give a key/value pair; otherwise a heading with an
anchor gives a keyed item list (plus "people also search for" strings when
the key matches); otherwise the entry is skipped. -/
def processEl (el : Node) : Except PyError (List (String × KCVal)) :=
  match spanDescendants el with
  | [p0, p1] => .ok [(normalize_dict_key (textContent p0), KCVal.str (textContent p1))]
  | _ =>
    match headingDivs el with
    | [] => .ok []
    | h0 :: _ =>
      match anchorsIn h0 with
      | [] => .ok []
      | a0 :: _ => do
        let key := normalize_dict_key (textContent a0)
        let base ← mapME itemsOfListDiv (listDivs el)
        let items :=
          if key == "people_also_search_for" then
            base.flatten ++ (sidewaysDivs el).map (fun p => KCItem.plain (textContent p))
          else base.flatten
        .ok [(key, KCVal.items items)]

/-- `GoogleHtmlParser._get_knowledge_card`: `None` when no container matches;
otherwise the `more_info` loop runs first and then the `title`, `subtitle`
and `description` subscripts are evaluated in that order, each raising
`IndexError` when its node-set is empty. -/
def get_knowledge_card (root : Node) : Except PyError (Option KnowledgeCard) :=
  match kcQuery root with
  | [] => .ok none
  | kc :: _ => do
    let mi ← mapME processEl (attridDivs kc)
    let title ← liftIndex (h2SpanNodes kc).head?
    let subtitle ← liftIndex (subtitleDivs kc).head?
    let description ← liftIndex (knoRdescSpans kc).head?
    .ok (some { title := textContent title, subtitle := textContent subtitle,
                description := textContent description, more_info := mi.flatten })

/-- A value of the dict returned by `get_data`. -/
inductive SerpValue where
  | int (n : Int)
  | fsnip (v : Option FeaturedSnippet)
  | organic (l : List OrganicResult)
deriving Repr, DecidableEq

/-- The `user_agent` attribute set by `GoogleHtmlParser.__init__`: anything
other than `mobile` or `desktop` is coerced to `desktop`. -/
def user_agent_of (ua : String) : String :=
  if ua = "mobile" ∨ ua = "desktop" then ua else "desktop"

/-- `GoogleHtmlParser.get_data`: under `desktop` builds the result dict
(values evaluated in literal order, so an exception in the estimated-results
or organic extraction aborts the call); under any other agent returns the
empty dict. -/
def get_data (tree : Node) (user_agent : String) : Except PyError (List (String × SerpValue)) :=
  if user_agent = "desktop" then do
    let er ← get_estimated_results tree
    let fs := get_featured_snippet tree
    let og ← get_organic tree
    .ok [("estimated_results", SerpValue.int er),
         ("featured_snippet", SerpValue.fsnip fs),
         ("organic_results", SerpValue.organic og)]
  else .ok []

/-- The spec's matching rule for the highlighted-answer container, written
for comparison with the code's `contains` test: the `class` attribute,
split on whitespace, has `tok` as one of its tokens. -/
def specClassTokenMatch (tok : String) (n : Node) : Bool :=
  match attr n "class" with
  | some c => (pySplit c).contains tok
  | none => false

/-! ### Concrete document fixtures -/

/-- A link node, `<a href="http://example.com">`. -/
def exA : Node := .elem "a" [("href", "http://example.com")] []

/-- A heading node, `<h3>Example</h3>`. -/
def exH3 : Node := .elem "h3" [] [.text "Example"]

/-- The single description block of the minimal document. -/
def exSnippetDiv : Node := .elem "div" [] [.text "A simple example site."]

/-- Wrapper levels placing `exSnippetDiv` at `.//div/div/div[2]/div`. -/
def exD1b : Node := .elem "div" [] [exSnippetDiv]

/-- Empty first sibling at the `div[2]` level. -/
def exD1a : Node := .elem "div" [] []

/-- Intermediate wrapper. -/
def exD1 : Node := .elem "div" [] [exD1a, exD1b]

/-- Outermost description wrapper. -/
def exD0 : Node := .elem "div" [] [exD1]

/-- The minimal organic container: one link, one heading, one description. -/
def exG : Node := .elem "div" [("class", "g")] [exA, exH3, exD0]

/-- The minimal synthetic document of the end-to-end scenario. -/
def exDoc : Node := .elem "html" [] [exG]

/-- First candidate description block, text `alpha`, no marker elements. -/
def cexCandA : Node := .elem "div" [] [.text "alpha"]

/-- Second candidate description block, text `beta`, no marker elements. -/
def cexCandB : Node := .elem "div" [] [.text "beta"]

/-- Holds both candidates as `div` children. -/
def cexP2b : Node := .elem "div" [] [cexCandA, cexCandB]

/-- Empty first sibling. -/
def cexP2a : Node := .elem "div" [] []

/-- Intermediate wrapper whose second `div` child is `cexP2b`. -/
def cexP1 : Node := .elem "div" [] [cexP2a, cexP2b]

/-- Outermost description wrapper. -/
def cexP0 : Node := .elem "div" [] [cexP1]

/-- An organic container whose positional query yields exactly the two
marker-free candidates `cexCandA`, `cexCandB`. -/
def cexG2 : Node := .elem "div" [("class", "g")] [exA, exH3, cexP0]

/-- An organic container with a heading but no hyperlink anywhere. -/
def cexNoHrefG : Node := .elem "div" [("class", "g")] [.elem "h3" [] [.text "T"]]

/-- A document with a malformed (link-less) organic container followed by a
well-formed one. -/
def cexDocC1 : Node := .elem "html" [] [cexNoHrefG, exG]

/-- A stats node whose second whitespace token is not numeric. -/
def statsBadDoc : Node :=
  .elem "div" [("id", "result-stats")] [.text "About many results"]

/-- A `div` whose class contains `kp-blk` as a substring but not as a
whitespace-separated token, with a heading and two links. -/
def fsSubDiv : Node :=
  .elem "div" [("class", "kp-blkx")]
    [.elem "h3" [] [.text "T"], .elem "a" [("href", "u1")] [],
     .elem "a" [("href", "u2")] []]

/-- Document around `fsSubDiv`. -/
def fsDocSub : Node := .elem "html" [] [fsSubDiv]

/-- A highlighted block whose class list genuinely has the `kp-blk` token,
with a heading and two links. -/
def fsTokDiv : Node :=
  .elem "div" [("class", "kp-blk other")]
    [.elem "h3" [] [.text "H"], .elem "a" [("href", "inner")] [],
     .elem "a" [("href", "last")] []]

/-- Document around `fsTokDiv`. -/
def fsDocTok : Node := .elem "html" [] [fsTokDiv]

/-- A matched knowledge-panel container with no title, subtitle or
description sub-element. -/
def kcBareDiv : Node := .elem "div" [("class", "kp-wholepage")] [.text "x"]

/-- Document around `kcBareDiv`. -/
def kcDocBare : Node := .elem "html" [] [kcBareDiv]

/-! ### Shared helper lemmas -/

/-- An uncaught exception propagates past the rest of the block. -/
@[simp] theorem bind_error_ex {α β : Type} (e : PyError) (k : α → Except PyError β) :
    (Except.error e : Except PyError α) >>= k = Except.error e := rfl

/-- A successful statement passes its value to the rest of the block. -/
@[simp] theorem bind_ok_ex {α β : Type} (a : α) (k : α → Except PyError β) :
    (Except.ok a : Except PyError α) >>= k = k a := rfl

/-- If one element of the list maps to an error, the whole loop errors. -/
theorem mapME_error_of_mem {α β : Type} {f : α → Except PyError β} {l : List α}
    {x : α} (hx : x ∈ l) {e : PyError} (hf : f x = .error e) :
    ∃ e', mapME f l = .error e' := by
  induction l with
  | nil => cases hx
  | cons y ys ih =>
    rcases List.mem_cons.mp hx with rfl | hmem
    · exact ⟨e, by simp [mapME, hf]⟩
    · cases hy : f y with
      | error e2 => exact ⟨e2, by simp [mapME, hy]⟩
      | ok v =>
        obtain ⟨e', he'⟩ := ih hmem
        exact ⟨e', by simp [mapME, hy, he']⟩

/-- A container with no hyperlink makes its own extraction raise. -/
theorem get_organic_one_error_of_no_href {g : Node} (h : hrefsIn g = []) :
    get_organic_one g = .error .indexError := by
  simp [get_organic_one, h, liftIndex]

/-! ### Claim theorems -/

/-- Claim C1, counterexample: in a document whose first organic container has
no hyperlink, the whole organic extraction raises `IndexError`; the malformed
block is not skipped and the well-formed second container is never
extracted. -/
theorem organic_missing_link_cex :
    (organicContainers cexDocC1).length = 2
    ∧ hrefsIn cexNoHrefG = []
    ∧ get_organic cexDocC1 = .error .indexError :=
  ⟨rfl, rfl, rfl⟩

/-- Claim C1 (amended): whenever any organic container in the document lacks
a hyperlink attribute, the whole organic-results extraction aborts with an
uncaught error; no result list is returned. -/
theorem organic_missing_link_aborts (root g : Node)
    (hg : g ∈ organicContainers root) (h : hrefsIn g = []) :
    ∃ e, get_organic root = .error e := by
  have h1 : get_organic_one g = .error .indexError := get_organic_one_error_of_no_href h
  simpa [get_organic] using mapME_error_of_mem hg h1

/-- Witness for the amended C1 theorem at the concrete two-container
document. -/
theorem organic_missing_link_aborts_witness :
    (get_organic cexDocC1).isOk = false := by
  have hm : cexNoHrefG ∈ organicContainers cexDocC1 := by
    rw [show organicContainers cexDocC1 = [cexNoHrefG, exG] from rfl]
    exact List.mem_cons_self _ _
  obtain ⟨e, he⟩ := organic_missing_link_aborts cexDocC1 cexNoHrefG hm rfl
  rw [he]
  rfl

/-- Claim C2, counterexample: on a document with no `result-stats` node the
estimated-results extraction returns `0` instead of raising. -/
theorem estimated_missing_stats_cex :
    statsTexts (Node.elem "html" [] []) = []
    ∧ get_estimated_results (Node.elem "html" [] []) = .ok 0 :=
  ⟨rfl, rfl⟩

/-- Claim C2 (amended): a missing stats node yields `0` without error; when
the node is present, a missing second whitespace token raises `IndexError`
and otherwise the result is `int` applied to the comma-stripped second token,
which raises `ValueError` on a non-numeric token. -/
theorem estimated_results_behavior (root : Node) :
    (statsTexts root = [] → get_estimated_results root = .ok 0)
    ∧ (∀ s l, statsTexts root = s :: l →
        ((pySplit s).get? 1 = none → get_estimated_results root = .error .indexError)
        ∧ (∀ tok, (pySplit s).get? 1 = some tok →
            get_estimated_results root = pyInt (removeCommas tok))) := by
  constructor
  · intro h
    simp [get_estimated_results, h]
  · intro s l h
    constructor
    · intro h2
      simp only [List.get?_eq_getElem?] at h2
      simp [get_estimated_results, h, h2, liftIndex]
    · intro tok h2
      simp only [List.get?_eq_getElem?] at h2
      simp [get_estimated_results, h, h2, liftIndex]

/-- Witness for the amended C2 theorem: the token `many` is non-numeric and
extraction raises `ValueError`. -/
theorem estimated_results_behavior_witness :
    get_estimated_results statsBadDoc = .error .valueError := by
  have h := ((estimated_results_behavior statsBadDoc).2 "About many results" [] rfl).2 "many" rfl
  exact h.trans rfl

/-- Claim C3, counterexample: two marker-free candidates (`alpha` then
`beta`): the first contains fewer than two marker sub-elements, yet the code
makes the second the snippet and the first the rich snippet — the opposite of
the claimed assignment. -/
theorem snippet_disambiguation_cex :
    snippetsQuery cexG2 = [cexCandA, cexCandB]
    ∧ reviewStars cexCandA = []
    ∧ reviewStars cexCandB = []
    ∧ textContent cexCandA = "alpha"
    ∧ textContent cexCandB = "beta"
    ∧ get_organic_one cexG2 =
        .ok ⟨"http://example.com", "Example", "beta", "alpha"⟩ :=
  ⟨rfl, rfl, rfl, rfl, rfl, rfl⟩

/-- Claim C3 (amended): with exactly two candidate blocks the code inspects
the second candidate: if it contains at least one `g-review-stars` marker the
first becomes the snippet and the second the rich snippet, otherwise the
first becomes the rich snippet and the second the snippet; with exactly one
candidate it becomes the snippet and the rich snippet is the empty string. -/
theorem snippet_disambiguation (g s0 s1 : Node) (u h : String)
    (us hs : List String) (hu : hrefsIn g = u :: us) (hh : h3Texts g = h :: hs) :
    (snippetsQuery g = [s0, s1] →
      get_organic_one g = .ok
        (if (reviewStars s1).length > 0 then
          { url := clean u, title := clean h,
            snippet := clean (textContent s0), rich_snippet := clean (textContent s1) }
        else
          { url := clean u, title := clean h,
            snippet := clean (textContent s1), rich_snippet := clean (textContent s0) }))
    ∧ (snippetsQuery g = [s0] →
      get_organic_one g = .ok
        { url := clean u, title := clean h,
          snippet := clean (textContent s0), rich_snippet := "" }) := by
  constructor
  · intro hsnip
    by_cases hc : (reviewStars s1).length > 0
    · simp [get_organic_one, hsnip, hu, hh, hc, liftIndex, cleanOpt]
    · simp [get_organic_one, hsnip, hu, hh, hc, liftIndex, cleanOpt]
  · intro hsnip
    simp [get_organic_one, hsnip, hu, hh, liftIndex, cleanOpt]

/-- Witness for the amended C3 theorem at the one-candidate minimal
container. -/
theorem snippet_disambiguation_witness :
    get_organic_one exG =
      .ok ⟨"http://example.com", "Example", "A simple example site.", ""⟩ :=
  (snippet_disambiguation exG exSnippetDiv exSnippetDiv "http://example.com"
    "Example" [] [] rfl rfl).2 rfl

/-- Claim C4, counterexample: under the desktop profile the returned record
has exactly the keys `estimated_results`, `featured_snippet` and
`organic_results`; `knowledge_card` and `scrolling_sections` are not among
its fields. -/
theorem get_data_fields_cex :
    get_data exDoc "desktop" =
      .ok [("estimated_results", SerpValue.int 0),
           ("featured_snippet", SerpValue.fsnip none),
           ("organic_results", SerpValue.organic
             [⟨"http://example.com", "Example", "A simple example site.", ""⟩])]
    ∧ ¬ "knowledge_card" ∈
        ["estimated_results", "featured_snippet", "organic_results"]
    ∧ ¬ "scrolling_sections" ∈
        ["estimated_results", "featured_snippet", "organic_results"] :=
  ⟨rfl, by decide, by decide⟩

/-- Claim C4 (amended): under the desktop profile the assembler runs only the
estimated-results, featured-snippet and organic-results extractors and the
returned dict holds exactly those three keys; the featured snippet resolves
to `none` (not an error) when its anchor pattern does not match, while
knowledge-card and scrolling-sections fields do not exist in the record. -/
theorem get_data_desktop_fields :
    (∀ (tree : Node) (er : Int) (og : List OrganicResult),
      get_estimated_results tree = .ok er → get_organic tree = .ok og →
      get_data tree "desktop" =
        .ok [("estimated_results", SerpValue.int er),
             ("featured_snippet", SerpValue.fsnip (get_featured_snippet tree)),
             ("organic_results", SerpValue.organic og)])
    ∧ (∀ tree : Node, fsQuery tree = [] → get_featured_snippet tree = none) := by
  constructor
  · intro tree er og h1 h2
    simp [get_data, h1, h2]
  · intro tree h
    simp [get_featured_snippet, h]

/-- Witness for the amended C4 theorem on a bare text document. -/
theorem get_data_desktop_fields_witness :
    get_data (Node.text "hello") "desktop" =
      .ok [("estimated_results", SerpValue.int 0),
           ("featured_snippet", SerpValue.fsnip none),
           ("organic_results", SerpValue.organic [])]
    ∧ get_featured_snippet (Node.text "hello") = none :=
  ⟨get_data_desktop_fields.1 (Node.text "hello") 0 [] rfl rfl,
   get_data_desktop_fields.2 (Node.text "hello") rfl⟩

/-- Claim C5: when a knowledge-panel container matches but its title
(`.//h2/span`), subtitle (`data-attrid` containing `subtitle`) or description
(`.//div[@class="kno-rdesc"]/span`) node-set is empty, knowledge-card
extraction fails with an uncaught error rather than returning an absent
card. -/
theorem knowledge_card_incomplete_errors (root kc : Node) (r : List Node)
    (hq : kcQuery root = kc :: r)
    (hmiss : h2SpanNodes kc = [] ∨ subtitleDivs kc = [] ∨ knoRdescSpans kc = []) :
    ∃ e, get_knowledge_card root = .error e := by
  cases hmi : mapME processEl (attridDivs kc) with
  | error e => exact ⟨e, by simp [get_knowledge_card, hq, hmi]⟩
  | ok mi =>
    cases h1 : h2SpanNodes kc with
    | nil => exact ⟨.indexError, by simp [get_knowledge_card, hq, hmi, h1, liftIndex]⟩
    | cons t ts =>
      cases h2 : subtitleDivs kc with
      | nil => exact ⟨.indexError, by simp [get_knowledge_card, hq, hmi, h1, h2, liftIndex]⟩
      | cons st sts =>
        cases h3 : knoRdescSpans kc with
        | nil =>
          exact ⟨.indexError, by simp [get_knowledge_card, hq, hmi, h1, h2, h3, liftIndex]⟩
        | cons d ds => simp [h1, h2, h3] at hmiss

/-- Witness for the C5 theorem at a bare matched panel. -/
theorem knowledge_card_incomplete_errors_witness :
    (get_knowledge_card kcDocBare).isOk = false := by
  obtain ⟨e, he⟩ :=
    knowledge_card_incomplete_errors kcDocBare kcBareDiv [] rfl (Or.inl rfl)
  rw [he]
  rfl

/-- Claim C6, counterexample: a document whose only `div` has class
`kp-blkx` — not a class-token match for `kp-blk` — is still matched by the
code's substring test, and featured-snippet extraction returns a value
instead of the claimed absence. -/
theorem featured_snippet_substring_match_cex :
    ((selfAndDesc fsDocSub).filter
        (fun n => isTag "div" n && specClassTokenMatch "kp-blk" n)) = []
    ∧ get_featured_snippet fsDocSub = some ⟨"T", "u2"⟩ :=
  ⟨rfl, rfl⟩

/-- Claim C6 (amended): the highlighted-answer container is matched by
substring containment of `kp-blk` in the space-padded class attribute (not
by class-token membership); when the first match contains a heading text and
at least one descendant link, extraction returns the first heading text as
title and the last link target as url, and in every other case the field is
absent with no error. -/
theorem featured_snippet_behavior (root : Node) :
    (fsQuery root = [] → get_featured_snippet root = none)
    ∧ (∀ el r, fsQuery root = el :: r →
        (∀ h hs, h3Texts el = h :: hs → aHrefs el ≠ [] →
          get_featured_snippet root =
            some { title := h, url := (aHrefs el).getLastD "" })
        ∧ ((h3Texts el = [] ∨ aHrefs el = []) →
          get_featured_snippet root = none)) := by
  constructor
  · intro h
    simp [get_featured_snippet, h]
  · intro el r hq
    constructor
    · intro h hs hh hu
      have hl : (aHrefs el).length > 0 := List.length_pos.mpr hu
      simp [get_featured_snippet, hq, hh, hl]
    · intro hd
      rcases hd with h | h
      · simp [get_featured_snippet, hq, h]
      · simp [get_featured_snippet, hq, h]

/-- Witness for the amended C6 theorem: a genuine token match with two links
takes the last link, and a bare document yields absence. -/
theorem featured_snippet_behavior_witness :
    get_featured_snippet fsDocTok = some ⟨"H", "last"⟩
    ∧ get_featured_snippet (Node.text "") = none := by
  constructor
  · exact ((featured_snippet_behavior fsDocTok).2 fsTokDiv [] rfl).1 "H" [] rfl
      (by decide)
  · exact (featured_snippet_behavior (Node.text "")).1 rfl

/-- Claim C7: on the minimal synthetic document the desktop assembly yields
exactly one organic result with the expected url, title and snippet, and an
empty rich snippet. -/
theorem end_to_end_minimal_doc :
    get_data exDoc "desktop" =
      .ok [("estimated_results", SerpValue.int 0),
           ("featured_snippet", SerpValue.fsnip none),
           ("organic_results", SerpValue.organic
             [{ url := "http://example.com", title := "Example",
                snippet := "A simple example site.", rich_snippet := "" }])] :=
  rfl

/-- Claim C10: any profile selector other than `mobile`/`desktop` is coerced
to `desktop`, making assembly behave exactly as the desktop profile, and the
`mobile` profile yields the empty record. -/
theorem profile_coercion :
    (∀ (tree : Node) (ua : String), ua ≠ "mobile" → ua ≠ "desktop" →
      user_agent_of ua = "desktop"
      ∧ get_data tree (user_agent_of ua) = get_data tree "desktop")
    ∧ (∀ tree : Node, get_data tree (user_agent_of "mobile") = .ok []) := by
  constructor
  · intro tree ua h1 h2
    have hc : user_agent_of ua = "desktop" := by
      simp [user_agent_of, h1, h2]
    exact ⟨hc, by rw [hc]⟩
  · intro tree
    rfl

/-- Witness for the C10 theorem at the unrecognized selector `tablet`. -/
theorem profile_coercion_witness :
    user_agent_of "tablet" = "desktop"
    ∧ get_data (Node.text "") (user_agent_of "tablet") = get_data (Node.text "") "desktop" :=
  profile_coercion.1 (Node.text "") "tablet" (by decide) (by decide)

/-- A nonempty prefix starts with the same element as the whole list. -/
theorem head?_of_isPrefix {α : Type} {l₁ l₂ : List α} (h : l₁ <+: l₂) {c : α}
    (hc : l₁.head? = some c) : l₂.head? = some c := by
  obtain ⟨t, rfl⟩ := h
  cases l₁ with
  | nil => simp at hc
  | cons a as => simpa using hc

/-- The first survivor of `dropWhile` fails the predicate. -/
theorem head?_dropWhile_not {α : Type} (p : α → Bool) (l : List α) {c : α}
    (h : (l.dropWhile p).head? = some c) : p c = false := by
  induction l with
  | nil => simp at h
  | cons x xs ih =>
    by_cases hx : p x
    · rw [List.dropWhile_cons_of_pos hx] at h
      exact ih h
    · rw [List.dropWhile_cons_of_neg hx] at h
      simp only [List.head?_cons, Option.some.injEq] at h
      rw [← h]
      exact Bool.eq_false_iff.mpr hx

/-- The last survivor of `rdropWhile` fails the predicate. -/
theorem getLast?_rdropWhile_not {α : Type} (p : α → Bool) (l : List α) {c : α}
    (h : (l.rdropWhile p).getLast? = some c) : p c = false := by
  have hne : l.rdropWhile p ≠ [] := by
    intro hh
    rw [hh] at h
    simp at h
  have hlast := List.rdropWhile_last_not p l hne
  have h2 : (l.rdropWhile p).getLast hne = c := by
    rw [List.getLast?_eq_getLast _ hne] at h
    exact Option.some.inj h
  rw [h2] at hlast
  exact Bool.eq_false_iff.mpr hlast

/-- `rdropWhile` keeps only elements of the original list. -/
theorem mem_rdropWhile {α : Type} {p : α → Bool} {l : List α} {c : α}
    (h : c ∈ l.rdropWhile p) : c ∈ l :=
  (List.rdropWhile_prefix p l).sublist.mem h

/-- `dropWhile` keeps only elements of the original list. -/
theorem mem_dropWhile {α : Type} {p : α → Bool} {l : List α} {c : α}
    (h : c ∈ l.dropWhile p) : c ∈ l :=
  (List.dropWhile_suffix p).sublist.mem h

/-- Stripping underscores keeps only characters of the original list. -/
theorem mem_stripUnderscores {l : List Char} {c : Char}
    (h : c ∈ stripUnderscores l) : c ∈ l :=
  mem_dropWhile (mem_rdropWhile h)

/-- Lowercasing cannot produce a space. -/
theorem pyLower_eq_space {d : Char} (h : pyLower d = ' ') : d = ' ' := by
  unfold pyLower at h
  split at h <;> first | exact h | exact absurd h (by decide)

/-- Lowercasing cannot produce a colon. -/
theorem pyLower_eq_colon {d : Char} (h : pyLower d = ':') : d = ':' := by
  unfold pyLower at h
  split at h <;> first | exact h | exact absurd h (by decide)

/-- Claim C8, counterexample: a run of two spaces becomes two underscores
(`replace(' ', '_')` substitutes each space separately), and a tab is not
replaced at all — the claimed run-collapsing rule does not hold. -/
theorem normalize_dict_key_run_cex :
    normalize_dict_key "a  b" = "a__b"
    ∧ normalize_dict_key "a\tb" = "a\tb"
    ∧ ("a__b" : String) ≠ "a_b" :=
  ⟨rfl, rfl, by decide⟩

/-- Claim C8 (amended): the key normalizer is total, replaces each space
character (not whitespace runs) with one underscore, removes colons,
lowercases and trims leading/trailing underscores; in particular both quoted
examples hold, and the output never contains a space or colon and never
starts or ends with an underscore. -/
theorem normalize_dict_key_behavior :
    normalize_dict_key "People Also Search For:" = "people_also_search_for"
    ∧ normalize_dict_key "  A B " = "a_b"
    ∧ (∀ (s : String) (c : Char),
        c ∈ (normalize_dict_key s).data → c ≠ ' ' ∧ c ≠ ':')
    ∧ (∀ (s : String) (c : Char),
        (normalize_dict_key s).data.head? = some c → c ≠ '_')
    ∧ (∀ (s : String) (c : Char),
        (normalize_dict_key s).data.getLast? = some c → c ≠ '_') := by
  refine ⟨rfl, rfl, ?_, ?_, ?_⟩
  · intro s c hc
    have hc' : c ∈ ((s.data.map (fun c => if c == ' ' then '_' else c)).filter
        (fun c => !(c == ':'))).map pyLower := mem_stripUnderscores hc
    rcases List.mem_map.mp hc' with ⟨d, hd, rfl⟩
    rcases List.mem_filter.mp hd with ⟨hd1, hdq⟩
    rcases List.mem_map.mp hd1 with ⟨a, _, rfl⟩
    constructor
    · intro hsp
      have hda := pyLower_eq_space hsp
      by_cases ha : a == ' '
      · rw [if_pos ha] at hda
        exact absurd hda (by decide)
      · rw [if_neg ha] at hda
        exact ha (by simp [hda])
    · intro hco
      have hda := pyLower_eq_colon hco
      rw [hda] at hdq
      simp at hdq
  · intro s c h
    have h2 : ((((s.data.map (fun c => if c == ' ' then '_' else c)).filter
        (fun c => !(c == ':'))).map pyLower).dropWhile
          (fun c => c == '_')).head? = some c :=
      head?_of_isPrefix (List.rdropWhile_prefix _ _) h
    have := head?_dropWhile_not (fun c => c == '_') _ h2
    simpa using this
  · intro s c h
    have := getLast?_rdropWhile_not (fun c => c == '_') _ h
    simpa using this

/-- Splitting consumes a whitespace-free chunk into the accumulator. -/
theorem splitWsAux_append_word (w : List Char) (rest acc : List Char)
    (hw : ∀ c ∈ w, pySpace c = false) :
    splitWsAux (w ++ rest) acc = splitWsAux rest (w.reverse ++ acc) := by
  induction w generalizing acc with
  | nil => simp
  | cons c cs ih =>
    have hc : pySpace c = false := hw c (List.mem_cons_self _ _)
    have hcs : ∀ x ∈ cs, pySpace x = false := fun x hx => hw x (List.mem_cons_of_mem _ hx)
    simp only [List.cons_append, splitWsAux, hc, Bool.false_eq_true, if_false]
    simpa [List.append_assoc] using ih (c :: acc) hcs

/-- Splitting an all-whitespace list with an empty accumulator yields no
words. -/
theorem splitWsAux_all_space (l : List Char) (h : ∀ c ∈ l, pySpace c = true) :
    splitWsAux l [] = [] := by
  induction l with
  | nil => rfl
  | cons c cs ih =>
    simp [splitWsAux, h c (List.mem_cons_self _ _),
      ih (fun x hx => h x (List.mem_cons_of_mem _ hx))]

/-- Trailing whitespace does not change the split. -/
theorem splitWsAux_append_spaces (l : List Char) (ss : List Char)
    (h : ∀ c ∈ ss, pySpace c = true) :
    ∀ acc, splitWsAux (l ++ ss) acc = splitWsAux l acc := by
  induction l with
  | nil =>
    intro acc
    simp only [List.nil_append]
    cases ss with
    | nil => rfl
    | cons s ss' =>
      have h1 : pySpace s = true := h s (List.mem_cons_self _ _)
      have h2 : splitWsAux ss' [] = [] :=
        splitWsAux_all_space ss' (fun x hx => h x (List.mem_cons_of_mem _ hx))
      simp [splitWsAux, h1, h2]
  | cons x xs ih =>
    intro acc
    by_cases hx : pySpace x
    · simp [splitWsAux, hx, ih]
    · simp [splitWsAux, hx, ih]

/-- Splitting the space-joined form of nonempty whitespace-free words, with a
nonempty pending word, recovers the pending word followed by the list. -/
theorem splitWsAux_join (ws : List (List Char)) :
    (∀ w ∈ ws, w ≠ [] ∧ ∀ c ∈ w, pySpace c = false) →
    ∀ acc, acc ≠ [] →
    splitWsAux (ws.flatMap (fun v => ' ' :: v)) acc = acc.reverse :: ws := by
  induction ws with
  | nil =>
    intro _ acc hacc
    simp [splitWsAux, hacc]
  | cons v vs ih =>
    intro hws acc hacc
    obtain ⟨hv, hvc⟩ := hws v (List.mem_cons_self _ _)
    have hvs : ∀ w ∈ vs, w ≠ [] ∧ ∀ c ∈ w, pySpace c = false :=
      fun w hw => hws w (List.mem_cons_of_mem _ hw)
    have hsp : pySpace ' ' = true := rfl
    show splitWsAux (' ' :: (v ++ vs.flatMap (fun v => ' ' :: v))) acc = acc.reverse :: v :: vs
    have step : splitWsAux (' ' :: (v ++ vs.flatMap (fun v => ' ' :: v))) acc
        = acc.reverse :: splitWsAux (v ++ vs.flatMap (fun v => ' ' :: v)) [] := by
      cases acc with
      | nil => exact absurd rfl hacc
      | cons a as => simp [splitWsAux, hsp]
    rw [step, splitWsAux_append_word v _ [] hvc]
    simp only [List.append_nil]
    rw [ih hvs v.reverse (by simp [hv])]
    simp

/-- Splitting undoes joining on nonempty whitespace-free words. -/
theorem splitWs_join (ws : List (List Char))
    (hws : ∀ w ∈ ws, w ≠ [] ∧ ∀ c ∈ w, pySpace c = false) :
    splitWs (joinWords ws) = ws := by
  cases ws with
  | nil => rfl
  | cons w ws' =>
    obtain ⟨hw, hwc⟩ := hws w (List.mem_cons_self _ _)
    have hws' : ∀ v ∈ ws', v ≠ [] ∧ ∀ c ∈ v, pySpace c = false :=
      fun v hv => hws v (List.mem_cons_of_mem _ hv)
    unfold splitWs joinWords
    rw [splitWsAux_append_word w _ [] hwc]
    simp only [List.append_nil]
    rw [splitWsAux_join ws' hws' w.reverse (by simp [hw])]
    simp

/-- Every word produced by splitting is nonempty and whitespace-free. -/
theorem splitWsAux_invariant :
    ∀ (l acc : List Char), (∀ c ∈ acc, pySpace c = false) →
    ∀ w ∈ splitWsAux l acc, w ≠ [] ∧ ∀ c ∈ w, pySpace c = false := by
  intro l
  induction l with
  | nil =>
    intro acc hacc w hw
    by_cases h : acc.isEmpty
    · simp [splitWsAux, h] at hw
    · simp [splitWsAux, h] at hw
      subst hw
      refine ⟨by simpa using (List.isEmpty_eq_false.mp (by simpa using h)), ?_⟩
      intro c hc
      exact hacc c (List.mem_reverse.mp hc)
  | cons x xs ih =>
    intro acc hacc w hw
    by_cases hx : pySpace x
    · by_cases ha : acc.isEmpty
      · simp [splitWsAux, hx, ha] at hw
        exact ih [] (by simp) w hw
      · simp [splitWsAux, hx, ha] at hw
        rcases hw with rfl | hw
        · refine ⟨by simpa using (List.isEmpty_eq_false.mp (by simpa using ha)), ?_⟩
          intro c hc
          exact hacc c (List.mem_reverse.mp hc)
        · exact ih [] (by simp) w hw
    · simp [splitWsAux, hx] at hw
      refine ih (x :: acc) ?_ w hw
      intro c hc
      rcases List.mem_cons.mp hc with rfl | h
      · exact Bool.eq_false_iff.mpr hx
      · exact hacc c h

/-- Characters of the split words come from the input or the accumulator. -/
theorem mem_splitWsAux {c : Char} {w : List Char} (hc : c ∈ w) :
    ∀ (l acc : List Char), w ∈ splitWsAux l acc → c ∈ l ∨ c ∈ acc := by
  intro l
  induction l with
  | nil =>
    intro acc hw
    by_cases h : acc.isEmpty
    · simp [splitWsAux, h] at hw
    · simp [splitWsAux, h] at hw
      subst hw
      exact Or.inr (List.mem_reverse.mp hc)
  | cons x xs ih =>
    intro acc hw
    by_cases hx : pySpace x
    · by_cases ha : acc.isEmpty
      · simp [splitWsAux, hx, ha] at hw
        rcases ih [] hw with h | h
        · exact Or.inl (List.mem_cons_of_mem _ h)
        · simp at h
      · simp [splitWsAux, hx, ha] at hw
        rcases hw with rfl | hw
        · exact Or.inr (List.mem_reverse.mp hc)
        · rcases ih [] hw with h | h
          · exact Or.inl (List.mem_cons_of_mem _ h)
          · simp at h
    · simp [splitWsAux, hx] at hw
      rcases ih (x :: acc) hw with h | h
      · exact Or.inl (List.mem_cons_of_mem _ h)
      · rcases List.mem_cons.mp h with rfl | h
        · exact Or.inl (List.mem_cons_self _ _)
        · exact Or.inr h

/-- A character of a space-joined word list is a space or a word
character. -/
theorem mem_joinWords {c : Char} {ws : List (List Char)} (h : c ∈ joinWords ws) :
    c = ' ' ∨ ∃ w ∈ ws, c ∈ w := by
  cases ws with
  | nil => simp [joinWords] at h
  | cons w ws' =>
    rcases List.mem_append.mp h with h | h
    · exact Or.inr ⟨w, List.mem_cons_self _ _, h⟩
    · rcases List.mem_flatMap.mp h with ⟨v, hv, hcv⟩
      rcases List.mem_cons.mp hcv with rfl | hcv
      · exact Or.inl rfl
      · exact Or.inr ⟨v, List.mem_cons_of_mem _ hv, hcv⟩

/-- Dropping leading whitespace does not change the split. -/
theorem splitWsAux_dropWhile (l : List Char) :
    splitWsAux (l.dropWhile pySpace) [] = splitWsAux l [] := by
  induction l with
  | nil => rfl
  | cons x xs ih =>
    by_cases hx : pySpace x
    · rw [List.dropWhile_cons_of_pos hx, ih]
      simp [splitWsAux, hx]
    · rw [List.dropWhile_cons_of_neg hx]

/-- A list is its whitespace-trimmed right part followed by its trailing
whitespace. -/
theorem rdropWhile_append_rtakeWhile {α : Type} (p : α → Bool) (l : List α) :
    l.rdropWhile p ++ l.rtakeWhile p = l := by
  unfold List.rdropWhile List.rtakeWhile
  rw [← List.reverse_append, List.takeWhile_append_dropWhile, List.reverse_reverse]

/-- Dropping trailing whitespace does not change the split. -/
theorem splitWsAux_rdropWhile (l : List Char) :
    splitWsAux (l.rdropWhile pySpace) [] = splitWsAux l [] := by
  conv_rhs => rw [← rdropWhile_append_rtakeWhile pySpace l]
  rw [splitWsAux_append_spaces _ _ (fun c hc => List.mem_rtakeWhile_imp hc)]

/-- Stripping does not change the split. -/
theorem splitWs_stripWs (l : List Char) : splitWs (stripWs l) = splitWs l := by
  unfold stripWs splitWs
  rw [splitWsAux_rdropWhile, splitWsAux_dropWhile]

/-- The nonempty branch of `_clean`, as an equation. -/
theorem clean_of_ne (y : String) (hy : y ≠ "") :
    clean y = String.mk (joinWords (splitWs (stripWs (y.data.filter isAsciiChar)))) := by
  unfold clean
  rw [if_neg hy]

/-- Claim C9: text cleaning is idempotent, maps absent and empty input to the
empty string, and collapses the example `"  a   b  "` to `"a b"`. -/
theorem clean_idempotent :
    (∀ x : String, clean (clean x) = clean x)
    ∧ cleanOpt none = ""
    ∧ clean "" = ""
    ∧ clean "  a   b  " = "a b" := by
  refine ⟨?_, rfl, rfl, rfl⟩
  intro x
  by_cases hx : x = ""
  · subst hx; rfl
  · by_cases hy : clean x = ""
    · rw [hy]
      rfl
    · have hkey := clean_of_ne x hx
      have hdata : (clean x).data = joinWords (splitWs (stripWs (x.data.filter isAsciiChar))) := by
        rw [hkey]
      have hinv : ∀ w ∈ splitWs (stripWs (x.data.filter isAsciiChar)),
          w ≠ [] ∧ ∀ c ∈ w, pySpace c = false :=
        splitWsAux_invariant _ [] (by simp)
      have hascii : (clean x).data.filter isAsciiChar = (clean x).data := by
        apply List.filter_eq_self.mpr
        intro c hc
        rw [hdata] at hc
        rcases mem_joinWords hc with rfl | ⟨w, hw, hcw⟩
        · rfl
        · rcases mem_splitWsAux hcw _ [] hw with h | h
          · exact (List.mem_filter.mp (mem_dropWhile (mem_rdropWhile h))).2
          · simp at h
      rw [clean_of_ne (clean x) hy, hascii, hdata, splitWs_stripWs,
        splitWs_join _ hinv, ← hdata]

/-- Witness for the amended C8 theorem at the first quoted example. -/
theorem normalize_dict_key_behavior_witness :
    ('p' ≠ ' ' ∧ 'p' ≠ ':') ∧ 'p' ≠ '_' ∧ 'r' ≠ '_' :=
  ⟨normalize_dict_key_behavior.2.2.1 "People Also Search For:" 'p' (by decide),
   normalize_dict_key_behavior.2.2.2.1 "People Also Search For:" 'p' (by decide),
   normalize_dict_key_behavior.2.2.2.2 "People Also Search For:" 'r' (by decide)⟩

end GoogleSearch
